import Mathlib

/-!
Shallow embedding of the directory-browser core of this repository:
`src/lib/directory.ts` (`resolvePath`, `buildBreadcrumbs`, `readDirectory`)
and the HTTP handler `src/app/api/directory/route.ts` (`GET`).

Modelling choices:
* JavaScript strings are Lean `String`s; the JS string operations used by the
  source (`split('/')`, `replace(/^\/+/, '')`, `startsWith`) are embedded as
  explicit functions on the underlying character lists.
* Node `path.resolve` / `path.join` / `path.relative` / `path.basename` (POSIX
  flavour) are embedded as segment-based path normalization functions.
* The Node `fs.promises` API is an external collaborator; it is modelled as a
  record `Fs` of two possibly-failing operations (`readdir`, `stat`), plus a
  concrete instantiation `fsOfTree` over an in-memory tree that follows the
  POSIX behaviour (readdir fails on a missing path or a non-directory).
* `String.prototype.localeCompare` is a platform collation; it is a parameter
  `lc : String → String → Int` of the embedding.  `asciiCompare` below is a
  concrete executable collation used to instantiate witnesses.
* `Array.prototype.sort` is required to be stable by the JS standard; it is
  embedded as a stable sort (`List.insertionSort`) with the source comparator.
* The two `throw` sites (the containment check in `resolvePath`, and rejected
  filesystem promises) become the two constructors of `DirError`.
-/

/-- The `type` field of a `DirectoryEntry`: the source uses the string literals
`'directory'` and `'file'`. -/
inductive EntryType where
  | file : EntryType
  | directory : EntryType
deriving DecidableEq, Repr, Inhabited

/-- Type `DirectoryEntry` from `src/lib/directory.ts`.  Field `modified` holds the
ISO-8601 string produced by `stats.mtime.toISOString()`; timestamps are kept
as their string rendering. -/
structure DirectoryEntry where
  name : String
  relativePath : String
  type : EntryType
  size : Int
  modified : String
deriving DecidableEq, Repr, Inhabited

/-- One `{ label, path }` breadcrumb element. -/
structure Breadcrumb where
  label : String
  path : String
deriving DecidableEq, Repr, Inhabited

/-- Type `DirectorySnapshot` from `src/lib/directory.ts`. -/
structure DirectorySnapshot where
  basePath : String
  requestedPath : String
  absolutePath : String
  parentPath : Option String
  breadcrumbs : List Breadcrumb
  entries : List DirectoryEntry
deriving DecidableEq, Repr, Inhabited

/-- The two failure kinds of the snapshot builder: the `Error` thrown by the
containment check in `resolvePath`, and any rejected filesystem promise
(carrying that error message). -/
inductive DirError where
  | outOfBounds : DirError
  | readError : String → DirError
deriving DecidableEq, Repr

instance {ε α : Type} [DecidableEq ε] [DecidableEq α] :
    DecidableEq (Except ε α) := fun a b =>
  match a, b with
  | .ok x, .ok y =>
    if h : x = y then .isTrue (by rw [h]) else .isFalse (by simp [h])
  | .error x, .error y =>
    if h : x = y then .isTrue (by rw [h]) else .isFalse (by simp [h])
  | .ok _, .error _ => .isFalse (by simp)
  | .error _, .ok _ => .isFalse (by simp)

/-- The `message` of the thrown `Error`, as read by the route handler
(`error instanceof Error ? error.message : ...`; both error kinds are `Error`
instances). -/
def DirError.message : DirError → String
  | .outOfBounds => "Requested path is outside the allowed directory."
  | .readError m => m

/-- A directory-listing element as returned by
`fs.readdir(p, { withFileTypes: true })`: a name plus `dirent.isDirectory()`. -/
structure Dirent where
  name : String
  isDirectory : Bool
deriving DecidableEq, Repr, Inhabited

/-- Result of `fs.stat`: the fields the source reads (`stats.size` and the
ISO rendering of `stats.mtime`). -/
structure Stats where
  size : Int
  mtime : String
deriving DecidableEq, Repr, Inhabited

/-- The filesystem collaborator: `fs.promises.readdir` and `fs.promises.stat`,
each either succeeding or rejecting with an error message. -/
structure Fs where
  readdir : String → Except String (List Dirent)
  stat : String → Except String Stats

/-! ### JS string operations -/

/-- Split a character list at every occurrence of `c`, keeping empty pieces:
the behaviour of `String.prototype.split` with a single-character separator
(`"".split('/') = [""]`, `"a//b".split('/') = ["a","","b"]`). -/
def splitChars (c : Char) : List Char → List (List Char)
  | [] => [[]]
  | x :: xs =>
    let r := splitChars c xs
    if x = c then [] :: r
    else
      match r with
      | [] => [[x]]
      | s :: ss => (x :: s) :: ss

/-- Model of `s.split(c)` for a one-character separator. -/
def jsSplit (c : Char) (s : String) : List String :=
  (splitChars c s.data).map (fun l => ⟨l⟩)

/-- Model of the replace of every leading separator: drop each leading `/`. -/
def stripLeadingSlashes (s : String) : String :=
  ⟨s.data.dropWhile (fun ch => ch = '/')⟩

/-- Model of `s.startsWith(pre)`, the JS method used by the containment check. -/
def jsStartsWith (s pre : String) : Bool :=
  pre.data.isPrefixOf s.data

/-- Does `sub` occur as a contiguous run inside `l`? -/
def containsSubAux (sub : List Char) : List Char → Bool
  | [] => sub.isEmpty
  | x :: rest => sub.isPrefixOf (x :: rest) || containsSubAux sub rest

/-- Model of `s.includes(sub)`: substring containment, used to state what leaks into
error messages. -/
def containsSubstr (s sub : String) : Bool :=
  containsSubAux sub.data s.data

/-! ### POSIX path functions (`node:path`) -/

/-- Join a list of strings with a separator. -/
def joinWith (sep : String) : List String → String
  | [] => ""
  | [x] => x
  | x :: y :: xs => x ++ sep ++ joinWith sep (y :: xs)

/-- The non-empty `/`-separated segments of a path string
(`p.split('/').filter(Boolean)`). -/
def segsOf (p : String) : List String :=
  (jsSplit '/' p).filter (fun x => x ≠ "")

/-- Normalization of the segment list of an absolute path: `.` segments are
dropped, `..` pops the previous segment (and is dropped at the root, as POSIX
resolution does for absolute paths).  `acc` holds already-normalized segments
in reverse. -/
def normalizeAux (acc : List String) : List String → List String
  | [] => acc.reverse
  | seg :: rest =>
    if seg = "." then normalizeAux acc rest
    else if seg = ".." then normalizeAux acc.tail rest
    else normalizeAux (seg :: acc) rest

/-- Rebuild an absolute path from its normalized segments (`[]` gives `"/"`,
matching `path.resolve`). -/
def joinAbs (segs : List String) : String :=
  "/" ++ joinWith "/" segs

/-- Model of `path.resolve(base, rel)` for an absolute `base` and a relative `rel`:
normalize the concatenation. -/
def pathResolve (base rel : String) : String :=
  joinAbs (normalizeAux [] (segsOf (base ++ "/" ++ rel)))

/-- Model of `path.join(a, b)` for an absolute `a`: concatenate and normalize. -/
def pathJoin (a b : String) : String :=
  joinAbs (normalizeAux [] (segsOf (a ++ "/" ++ b)))

/-- Model of `path.basename(p)`: the last non-empty segment (empty for `/`). -/
def pathBasename (p : String) : String :=
  ((segsOf p).getLast?).getD ""

/-- Drop the common leading segments of two segment lists. -/
def dropCommon : List String → List String → List String × List String
  | a :: as, b :: bs => if a = b then dropCommon as bs else (a :: as, b :: bs)
  | as, bs => (as, bs)

/-- Model of `path.relative(src, dst)` for absolute, normalized `src` and `dst`: strip
the common segment prefix, go up once per remaining `src` segment, then down
the remaining `dst` segments. -/
def pathRelative (src dst : String) : String :=
  let rem := dropCommon (segsOf src) (segsOf dst)
  joinWith "/" (List.replicate rem.1.length ".." ++ rem.2)

/-! ### `src/lib/directory.ts` -/

/-- The fixed base: the source declares it as the string `/dp-apps`. -/
def BASE_DIRECTORY : String := "/dp-apps"

/-- Function `resolvePath` from `src/lib/directory.ts`: strip leading separators,
resolve against the base, and apply the containment check
`targetPath.startsWith(BASE_DIRECTORY)` exactly as written (a naive string
test). -/
def resolvePath (requestedPath : String) : Except DirError String :=
  let normalizedRequest := stripLeadingSlashes requestedPath
  let targetPath := pathResolve BASE_DIRECTORY normalizedRequest
  if jsStartsWith targetPath BASE_DIRECTORY then .ok targetPath
  else .error .outOfBounds

/-- The `reduce` loop of `buildBreadcrumbs`: push one crumb per segment, with
the cumulative path (`acc.pathAcc ? acc.pathAcc + '/' + segment : segment`). -/
def crumbsFrom (pathAcc : String) : List String → List Breadcrumb
  | [] => []
  | seg :: rest =>
    let nextPath := if pathAcc = "" then seg else pathAcc ++ "/" ++ seg
    { label := seg, path := nextPath } :: crumbsFrom nextPath rest

/-- Function `buildBreadcrumbs` from `src/lib/directory.ts`: a root crumb labelled
`path.basename(BASE_DIRECTORY) || BASE_DIRECTORY` with path `""`, followed by
one crumb per non-empty segment of the raw requested path. -/
def buildBreadcrumbs (requestedPath : String) : List Breadcrumb :=
  let segments := segsOf requestedPath
  let rootLabel := if pathBasename BASE_DIRECTORY = "" then BASE_DIRECTORY
                   else pathBasename BASE_DIRECTORY
  { label := rootLabel, path := "" } :: crumbsFrom "" segments

/-- The comparator passed to `entries.sort`: directories first, then
`a.name.localeCompare(b.name)` (the collation `lc` is the platform parameter). -/
def entryCompare (lc : String → String → Int) (a b : DirectoryEntry) : Int :=
  if a.type ≠ b.type then (if a.type = .directory then -1 else 1)
  else lc a.name b.name

/-- The sort relation induced by the comparator: `a` may come before `b` when
the comparator is non-positive. -/
def entryLe (lc : String → String → Int) (a b : DirectoryEntry) : Prop :=
  entryCompare lc a b ≤ 0

instance (lc : String → String → Int) : DecidableRel (entryLe lc) :=
  fun a b => inferInstanceAs (Decidable (entryCompare lc a b ≤ 0))

/-- Build one `DirectoryEntry` from a dirent: `path.join`, `fs.stat`, and
`path.relative(BASE_DIRECTORY, entryPath)` as in the `dirents.map` callback. -/
def direntToEntry (fs : Fs) (absolutePath : String) (d : Dirent) :
    Except DirError DirectoryEntry := do
  let stats ← (fs.stat (pathJoin absolutePath d.name)).mapError DirError.readError
  .ok { name := d.name
        relativePath := pathRelative BASE_DIRECTORY (pathJoin absolutePath d.name)
        type := if d.isDirectory then .directory else .file
        size := stats.size
        modified := stats.mtime }

/-- Model of `Promise.all(dirents.map(...))`: every per-child read must succeed, any
rejection rejects the whole. -/
def mapAll (f : α → Except ε β) : List α → Except ε (List β)
  | [] => .ok []
  | x :: xs => do
    let y ← f x
    let ys ← mapAll f xs
    .ok (y :: ys)

/-- Function `readDirectory` from `src/lib/directory.ts`, over the filesystem `fs` and
the platform collation `lc`. -/
def readDirectory (lc : String → String → Int) (fs : Fs)
    (requestedPath : String) : Except DirError DirectorySnapshot := do
  let absolutePath ← resolvePath requestedPath
  let dirents ← (fs.readdir absolutePath).mapError DirError.readError
  let entries ← mapAll (direntToEntry fs absolutePath) dirents
  let sorted := List.insertionSort (entryLe lc) entries
  let breadcrumbs := buildBreadcrumbs requestedPath
  let parentPath :=
    if breadcrumbs.length > 1
    then some ((breadcrumbs.getD (breadcrumbs.length - 2) default).path)
    else none
  .ok { basePath := BASE_DIRECTORY
        requestedPath := requestedPath
        absolutePath := absolutePath
        parentPath := parentPath
        breadcrumbs := breadcrumbs
        entries := sorted }

/-! ### `src/app/api/directory/route.ts` -/

/-- The body of a `NextResponse.json(...)`: either the snapshot or an
`{ error }` object. -/
inductive ResponseBody where
  | snapshot : DirectorySnapshot → ResponseBody
  | err : String → ResponseBody
deriving DecidableEq, Repr

/-- An HTTP response: status code plus JSON body. -/
structure JsonResponse where
  status : Nat
  body : ResponseBody
deriving DecidableEq, Repr

/-- The `GET` handler of `src/app/api/directory/route.ts`:
`searchParams.get("path") ?? ""`, then `readDirectory` in a `try`, answering
`200` with the snapshot or `400` with `{ error: message }` where the message
is `error.message` (both thrown errors are `Error` instances). -/
def GET (lc : String → String → Int) (fs : Fs) (pathParam : Option String) :
    JsonResponse :=
  let requestedPath := pathParam.getD ""
  match readDirectory lc fs requestedPath with
  | .ok snapshot => { status := 200, body := .snapshot snapshot }
  | .error e => { status := 400, body := .err e.message }

/-! ### Concrete filesystem model for witnesses -/

/-- An in-memory filesystem tree: files carry `size` and `mtime`, directories
carry `mtime` and named children. -/
inductive FsNode where
  | file : Int → String → FsNode
  | dir : String → List (String × FsNode) → FsNode
deriving Repr, Inhabited

/-- Look a name up in a child list. -/
def lookupChild (name : String) : List (String × FsNode) → Option FsNode
  | [] => none
  | (n, node) :: rest => if n = name then some node else lookupChild name rest

/-- Walk a segment list down the tree. -/
def walkTree (t : FsNode) : List String → Option FsNode
  | [] => some t
  | seg :: rest =>
    match t with
    | .file _ _ => none
    | .dir _ children =>
      match lookupChild seg children with
      | some child => walkTree child rest
      | none => none

/-- Resolve an absolute path in the tree rooted at `/`. -/
def pathLookup (t : FsNode) (p : String) : Option FsNode :=
  walkTree t (segsOf p)

/-- The `Fs` of an in-memory tree, following the POSIX semantics of the Node
`fs.promises` API: `readdir` fails when the path is missing (ENOENT) or names
a file (ENOTDIR), and the Node error message names the offending path;
`stat` fails when the path is missing.  Directory stats report size 0. -/
def fsOfTree (t : FsNode) : Fs where
  readdir p :=
    match pathLookup t p with
    | some (.dir _ children) =>
      .ok (children.map (fun c =>
        { name := c.1, isDirectory := match c.2 with | .dir _ _ => true | .file _ _ => false }))
    | some (.file _ _) =>
      .error ("ENOTDIR: not a directory, scandir " ++ p)
    | none =>
      .error ("ENOENT: no such file or directory, scandir " ++ p)
  stat p :=
    match pathLookup t p with
    | some (.file sz mt) => .ok { size := sz, mtime := mt }
    | some (.dir mt _) => .ok { size := 0, mtime := mt }
    | none => .error ("ENOENT: no such file or directory, stat " ++ p)

/-- A concrete collation used to instantiate the `localeCompare` parameter in
witnesses: three-way code-unit comparison.  On the names appearing in the
witnesses it agrees with the default locale collation. -/
def cmpChars : List Char → List Char → Int
  | [], [] => 0
  | [], _ :: _ => -1
  | _ :: _, [] => 1
  | a :: as, b :: bs =>
    if a < b then -1 else if b < a then 1 else cmpChars as bs

/-- Code-unit string comparison (a concrete `localeCompare` instance). -/
def asciiCompare (s t : String) : Int :=
  cmpChars s.data t.data

/-! ### Concrete filesystem trees and snapshots used in witnesses -/

/-- A fixed timestamp used by the concrete trees. -/
def mtISO : String := "2024-01-01T00:00:00.000Z"

/-- Tree in which `/dp-apps` exists and is empty. -/
def baseTree : FsNode := .dir mtISO [("dp-apps", .dir mtISO [])]

/-- Tree in which `/dp-apps/foo` is an empty directory. -/
def fooTree : FsNode :=
  .dir mtISO [("dp-apps", .dir mtISO [("foo", .dir mtISO [])])]

/-- Tree in which `/dp-apps` is empty but a sibling `/dp-apps-evil` exists with a file. -/
def evilTree : FsNode :=
  .dir mtISO [("dp-apps", .dir mtISO []),
    ("dp-apps-evil", .dir mtISO [("secret.txt", .file 5 mtISO)])]

/-- Tree in which `/dp-apps/file.txt` is a file, not a directory. -/
def fileTree : FsNode :=
  .dir mtISO [("dp-apps", .dir mtISO [("file.txt", .file 12 mtISO)])]

/-- Tree in which `/dp-apps` lists, in filesystem order, `b.txt` (file), `A` (directory),
`a.txt` (file), `B` (directory): the sorting example of the spec. -/
def sortTree : FsNode :=
  .dir mtISO [("dp-apps", .dir mtISO
    [("b.txt", .file 1 mtISO), ("A", .dir mtISO []),
     ("a.txt", .file 2 mtISO), ("B", .dir mtISO [])])]

/-- The snapshot `readDirectory` produces for the root request on `sortTree`. -/
def sortSnapshot : DirectorySnapshot :=
  { basePath := "/dp-apps"
    requestedPath := ""
    absolutePath := "/dp-apps"
    parentPath := none
    breadcrumbs := [{ label := "dp-apps", path := "" }]
    entries :=
      [{ name := "A", relativePath := "A", type := .directory, size := 0,
         modified := mtISO },
       { name := "B", relativePath := "B", type := .directory, size := 0,
         modified := mtISO },
       { name := "a.txt", relativePath := "a.txt", type := .file, size := 2,
         modified := mtISO },
       { name := "b.txt", relativePath := "b.txt", type := .file, size := 1,
         modified := mtISO }] }

/-- The snapshot `readDirectory` produces for the request `"foo"` on
`fooTree`. -/
def fooSnapshot : DirectorySnapshot :=
  { basePath := "/dp-apps"
    requestedPath := "foo"
    absolutePath := "/dp-apps/foo"
    parentPath := some ""
    breadcrumbs := [{ label := "dp-apps", path := "" },
                    { label := "foo", path := "foo" }]
    entries := [] }

/-- The cumulative `/`-joined segment paths, as the spec words them: the
`i`-th path is the join of the first `i+1` segments. -/
def cumPaths (segs : List String) : List String :=
  (List.range segs.length).map (fun i => joinWith "/" (segs.take (i + 1)))

/-- Modelled from the spec (section 4.2, Breadcrumb Builder): a root entry
labelled with the base directory's own name and path `""`, followed by one
entry per non-empty segment, whose path is the cumulative `/`-joined segment
path and whose label is the segment itself. -/
def breadcrumbsSpec (requestedPath : String) : List Breadcrumb :=
  { label := pathBasename BASE_DIRECTORY, path := "" } ::
    List.zipWith (fun seg q => { label := seg, path := q })
      (segsOf requestedPath) (cumPaths (segsOf requestedPath))

/-! ### Basic lemmas -/

theorem string_data_inj {a b : String} (h : a.data = b.data) : a = b := by
  cases a; cases b; exact congrArg String.mk h

theorem strAppend_assoc (a b c : String) : a ++ b ++ c = a ++ (b ++ c) :=
  string_data_inj (by simp [String.data_append])

theorem slash_append_ne_empty (a s : String) : a ++ "/" ++ s ≠ "" := by
  intro h
  have h2 := congrArg String.data h
  have h3 : ("/" : String).data = ['/'] := rfl
  simp [String.data_append, h3] at h2

theorem segsOf_mem_ne_empty {p x : String} (hx : x ∈ segsOf p) : x ≠ "" := by
  simp only [segsOf, List.mem_filter, decide_eq_true_eq] at hx
  exact hx.2

theorem joinWith_cons_ne_nil (sep s : String) (l : List String) (h : l ≠ []) :
    joinWith sep (s :: l) = s ++ sep ++ joinWith sep l := by
  cases l with
  | nil => exact absurd rfl h
  | cons y ys => rfl

/-! ### `Except` plumbing -/

theorem exceptBind_ok {ε α β : Type} (a : α) (f : α → Except ε β) :
    (Except.ok a >>= f) = f a := rfl

theorem exceptBind_error {ε α β : Type} (e : ε) (f : α → Except ε β) :
    ((Except.error e : Except ε α) >>= f) = Except.error e := rfl

theorem exceptMapError_ok {ε ε₂ α : Type} (f : ε → ε₂) (a : α) :
    Except.mapError f (Except.ok a) = .ok a := rfl

theorem exceptMapError_error {ε ε₂ α : Type} (f : ε → ε₂) (e : ε) :
    (Except.mapError f (Except.error e) : Except ε₂ α) = .error (f e) := rfl

theorem mapAll_ok_forall₂ {α β ε : Type} {f : α → Except ε β} :
    ∀ {l : List α} {r : List β}, mapAll f l = .ok r →
      List.Forall₂ (fun a b => f a = .ok b) l r := by
  intro l
  induction l with
  | nil =>
    intro r h
    simp only [mapAll] at h
    cases h
    exact List.Forall₂.nil
  | cons x xs ih =>
    intro r h
    simp only [mapAll] at h
    cases hfx : f x with
    | error e => rw [hfx, exceptBind_error] at h; cases h
    | ok y =>
      rw [hfx, exceptBind_ok] at h
      cases hm : mapAll f xs with
      | error e => rw [hm, exceptBind_error] at h; cases h
      | ok ys =>
        rw [hm, exceptBind_ok] at h
        cases h
        exact List.Forall₂.cons hfx (ih hm)

theorem mapAll_error_of_mem {α β ε : Type} {f : α → Except ε β} {l : List α}
    {d : α} {m : ε} (hd : d ∈ l) (hf : f d = .error m) :
    ∃ e, mapAll f l = .error e := by
  induction l with
  | nil => cases hd
  | cons x xs ih =>
    simp only [mapAll]
    cases hfx : f x with
    | error e => exact ⟨e, by rw [exceptBind_error]⟩
    | ok y =>
      rw [exceptBind_ok]
      rcases List.mem_cons.mp hd with rfl | hmem
      · rw [hfx] at hf; cases hf
      · rcases ih hmem with ⟨e, he⟩
        exact ⟨e, by rw [he, exceptBind_error]⟩

/-! ### Unfolding `readDirectory` -/

theorem readDirectory_eq (lc : String → String → Int) (fs : Fs) (p : String) :
    readDirectory lc fs p =
      match resolvePath p with
      | .error e => .error e
      | .ok R =>
        match fs.readdir R with
        | .error m => .error (.readError m)
        | .ok ds =>
          match mapAll (direntToEntry fs R) ds with
          | .error e => .error e
          | .ok raw =>
            .ok { basePath := BASE_DIRECTORY
                  requestedPath := p
                  absolutePath := R
                  parentPath :=
                    if (buildBreadcrumbs p).length > 1
                    then some (((buildBreadcrumbs p).getD
                      ((buildBreadcrumbs p).length - 2) default).path)
                    else none
                  breadcrumbs := buildBreadcrumbs p
                  entries := List.insertionSort (entryLe lc) raw } := by
  unfold readDirectory
  cases resolvePath p with
  | error e => rfl
  | ok R =>
    simp only [exceptBind_ok]
    cases fs.readdir R with
    | error m => rfl
    | ok ds =>
      simp only [exceptMapError_ok, exceptBind_ok]
      cases mapAll (direntToEntry fs R) ds with
      | error e => rfl
      | ok raw => rfl

theorem readDirectory_resolve_error {lc : String → String → Int} {fs : Fs}
    {p : String} {e : DirError} (h : resolvePath p = .error e) :
    readDirectory lc fs p = .error e := by
  unfold readDirectory
  rw [h]
  rfl

theorem readDirectory_readdir_error {lc : String → String → Int} {fs : Fs}
    {p R : String} {m : String} (hR : resolvePath p = .ok R)
    (hm : fs.readdir R = .error m) :
    readDirectory lc fs p = .error (.readError m) := by
  unfold readDirectory
  rw [hR]
  simp only [exceptBind_ok]
  rw [hm]
  rfl

theorem readDirectory_mapAll_error {lc : String → String → Int} {fs : Fs}
    {p R : String} {ds : List Dirent} {e : DirError}
    (hR : resolvePath p = .ok R) (hds : fs.readdir R = .ok ds)
    (he : mapAll (direntToEntry fs R) ds = .error e) :
    readDirectory lc fs p = .error e := by
  unfold readDirectory
  rw [hR]
  simp only [exceptBind_ok]
  rw [hds]
  simp only [exceptMapError_ok, exceptBind_ok]
  rw [he]
  rfl

theorem readDirectory_ok_build {lc : String → String → Int} {fs : Fs}
    {p R : String} {ds : List Dirent} {raw : List DirectoryEntry}
    (hR : resolvePath p = .ok R) (hds : fs.readdir R = .ok ds)
    (hraw : mapAll (direntToEntry fs R) ds = .ok raw) :
    readDirectory lc fs p =
      .ok { basePath := BASE_DIRECTORY
            requestedPath := p
            absolutePath := R
            parentPath :=
              if (buildBreadcrumbs p).length > 1
              then some (((buildBreadcrumbs p).getD
                ((buildBreadcrumbs p).length - 2) default).path)
              else none
            breadcrumbs := buildBreadcrumbs p
            entries := List.insertionSort (entryLe lc) raw } := by
  unfold readDirectory
  rw [hR]
  simp only [exceptBind_ok]
  rw [hds]
  simp only [exceptMapError_ok, exceptBind_ok]
  rw [hraw]
  simp only [exceptBind_ok]

theorem readDirectory_ok_inv {lc : String → String → Int} {fs : Fs}
    {p : String} {s : DirectorySnapshot} (h : readDirectory lc fs p = .ok s) :
    ∃ R ds raw, resolvePath p = .ok R ∧ fs.readdir R = .ok ds ∧
      mapAll (direntToEntry fs R) ds = .ok raw ∧
      s = { basePath := BASE_DIRECTORY
            requestedPath := p
            absolutePath := R
            parentPath :=
              if (buildBreadcrumbs p).length > 1
              then some (((buildBreadcrumbs p).getD
                ((buildBreadcrumbs p).length - 2) default).path)
              else none
            breadcrumbs := buildBreadcrumbs p
            entries := List.insertionSort (entryLe lc) raw } := by
  cases hR : resolvePath p with
  | error e => rw [readDirectory_resolve_error hR] at h; cases h
  | ok R =>
    cases hds : fs.readdir R with
    | error m => rw [readDirectory_readdir_error hR hds] at h; cases h
    | ok ds =>
      cases hraw : mapAll (direntToEntry fs R) ds with
      | error e => rw [readDirectory_mapAll_error hR hds hraw] at h; cases h
      | ok raw =>
        rw [readDirectory_ok_build hR hds hraw] at h
        injection h with h2
        exact ⟨R, ds, raw, rfl, hds, hraw, h2.symm⟩

theorem resolvePath_error_inv {p : String} {e : DirError}
    (h : resolvePath p = .error e) : e = .outOfBounds := by
  simp only [resolvePath] at h
  split at h
  · cases h
  · cases h; rfl

theorem direntToEntry_stat_error {fs : Fs} {R : String} {d : Dirent}
    {m : String} (hst : fs.stat (pathJoin R d.name) = .error m) :
    direntToEntry fs R d = .error (.readError m) := by
  unfold direntToEntry
  rw [hst]
  rfl

theorem direntToEntry_ok_inv {fs : Fs} {R : String} {d : Dirent}
    {e : DirectoryEntry} (h : direntToEntry fs R d = .ok e) :
    ∃ st, fs.stat (pathJoin R d.name) = .ok st ∧
      e = { name := d.name
            relativePath := pathRelative BASE_DIRECTORY (pathJoin R d.name)
            type := if d.isDirectory then .directory else .file
            size := st.size
            modified := st.mtime } := by
  unfold direntToEntry at h
  cases hst : fs.stat (pathJoin R d.name) with
  | error m => rw [hst] at h; cases h
  | ok st =>
    rw [hst] at h
    cases h
    exact ⟨st, rfl, rfl⟩

/-! ### Comparator lemmas -/

theorem entryLe_iff (lc : String → String → Int) (a b : DirectoryEntry) :
    entryLe lc a b ↔
      ((a.type = .directory ∧ b.type = .file) ∨
       (a.type = b.type ∧ lc a.name b.name ≤ 0)) := by
  unfold entryLe entryCompare
  cases ha : a.type <;> cases hb : b.type <;> simp [ha, hb]

theorem entryLe_total {lc : String → String → Int}
    (hlc : ∀ a b, lc a b ≤ 0 ∨ lc b a ≤ 0) (a b : DirectoryEntry) :
    entryLe lc a b ∨ entryLe lc b a := by
  rw [entryLe_iff, entryLe_iff]
  cases ha : a.type <;> cases hb : b.type <;> simp [ha, hb]
  · exact hlc a.name b.name
  · exact hlc a.name b.name

theorem entryLe_trans {lc : String → String → Int}
    (hlc : ∀ a b c, lc a b ≤ 0 → lc b c ≤ 0 → lc a c ≤ 0)
    (a b c : DirectoryEntry) (hab : entryLe lc a b) (hbc : entryLe lc b c) :
    entryLe lc a c := by
  rw [entryLe_iff] at hab hbc ⊢
  cases ha : a.type <;> cases hb : b.type <;> cases hc : c.type <;>
    simp_all
  · exact hlc a.name b.name c.name hab hbc
  · exact hlc a.name b.name c.name hab hbc

theorem cmpChars_le_total : ∀ a b : List Char, cmpChars a b ≤ 0 ∨ cmpChars b a ≤ 0
  | [], [] => by simp [cmpChars]
  | [], _ :: _ => by simp [cmpChars]
  | _ :: _, [] => by simp [cmpChars]
  | a :: as, b :: bs => by
    by_cases h1 : a < b
    · left; simp [cmpChars, h1]
    · by_cases h2 : b < a
      · right; simp [cmpChars, h2]
      · have ih := cmpChars_le_total as bs
        simpa [cmpChars, h1, h2] using ih

theorem cmpChars_le_trans :
    ∀ a b c : List Char, cmpChars a b ≤ 0 → cmpChars b c ≤ 0 → cmpChars a c ≤ 0
  | [], b, c, _, _ => by cases c <;> simp [cmpChars]
  | _ :: _, [], _, h1, _ => by simp [cmpChars] at h1
  | _ :: _, _ :: _, [], _, h2 => by simp [cmpChars] at h2
  | x :: xs, y :: ys, z :: zs, h1, h2 => by
    simp only [cmpChars] at h1 h2 ⊢
    by_cases hxy : x < y
    · by_cases hxz : x < z
      · simp [hxz]
      · by_cases hyz : y < z
        · exact absurd (lt_trans hxy hyz) hxz
        · by_cases hzy : z < y
          · simp [hyz, hzy] at h2
          · have hyzeq : y = z := le_antisymm (not_lt.mp hzy) (not_lt.mp hyz)
            exact absurd (hyzeq ▸ hxy) hxz
    · by_cases hyx : y < x
      · simp [hxy, hyx] at h1
      · have hxyeq : x = y := le_antisymm (not_lt.mp hyx) (not_lt.mp hxy)
        subst hxyeq
        by_cases hxz : x < z
        · simp [hxz]
        · by_cases hzx : z < x
          · simp [hxz, hzx] at h2
          · simp only [hxy, hxz, hzx, if_neg, if_false] at h1 h2 ⊢
            exact cmpChars_le_trans xs ys zs h1 h2

theorem asciiCompare_total (s t : String) :
    asciiCompare s t ≤ 0 ∨ asciiCompare t s ≤ 0 :=
  cmpChars_le_total s.data t.data

theorem asciiCompare_trans (s t u : String) (h1 : asciiCompare s t ≤ 0)
    (h2 : asciiCompare t u ≤ 0) : asciiCompare s u ≤ 0 :=
  cmpChars_le_trans s.data t.data u.data h1 h2

/-! ### Breadcrumb lemmas -/

theorem crumbsFrom_length (acc : String) (segs : List String) :
    (crumbsFrom acc segs).length = segs.length := by
  induction segs generalizing acc with
  | nil => rfl
  | cons s rest ih => simp [crumbsFrom, ih]

theorem cumPaths_cons (s : String) (rest : List String) :
    cumPaths (s :: rest) = s :: (cumPaths rest).map (fun q => s ++ "/" ++ q) := by
  unfold cumPaths
  rw [List.length_cons, List.range_succ_eq_map]
  simp only [List.map_cons, List.map_map]
  congr 1
  apply List.map_congr_left
  intro i hi
  have hlt : i < rest.length := List.mem_range.mp hi
  have hne : rest.take (i + 1) ≠ [] := by
    intro hnil
    rcases List.take_eq_nil_iff.mp hnil with h | h
    · cases h
    · rw [h] at hlt; cases hlt
  simp only [Function.comp]
  rw [List.take_succ_cons, joinWith_cons_ne_nil "/" s (rest.take (i + 1)) hne]

theorem crumbs_general (segs : List String) : ∀ acc : String, acc ≠ "" →
    crumbsFrom acc segs =
      List.zipWith (fun seg q => { label := seg, path := q }) segs
        ((cumPaths segs).map (fun q => acc ++ "/" ++ q)) := by
  induction segs with
  | nil => intro acc _; rfl
  | cons s rest ih =>
    intro acc h
    rw [cumPaths_cons]
    simp only [List.map_cons, List.map_map, List.zipWith_cons_cons]
    simp only [crumbsFrom, if_neg h]
    congr 1
    rw [ih (acc ++ "/" ++ s) (slash_append_ne_empty acc s)]
    congr 1
    apply List.map_congr_left
    intro q _
    simp only [Function.comp]
    simp [strAppend_assoc]

theorem crumbs_root (segs : List String) (hne : ∀ x ∈ segs, x ≠ "") :
    crumbsFrom "" segs =
      List.zipWith (fun seg q => { label := seg, path := q }) segs
        (cumPaths segs) := by
  cases segs with
  | nil => rfl
  | cons s rest =>
    have hs : s ≠ "" := hne s (List.mem_cons_self s rest)
    rw [cumPaths_cons]
    simp only [crumbsFrom, if_pos rfl, List.zipWith_cons_cons]
    congr 1
    exact crumbs_general rest s hs

theorem mapAll_error_form {α β ε : Type} {f : α → Except ε β} :
    ∀ {l : List α} {e : ε}, mapAll f l = .error e → ∃ a ∈ l, f a = .error e := by
  intro l
  induction l with
  | nil => intro e h; simp [mapAll] at h
  | cons x xs ih =>
    intro e h
    simp only [mapAll] at h
    cases hfx : f x with
    | error e2 =>
      rw [hfx, exceptBind_error] at h
      cases h
      exact ⟨x, List.mem_cons_self x xs, hfx⟩
    | ok y =>
      rw [hfx, exceptBind_ok] at h
      cases hm : mapAll f xs with
      | error e2 =>
        rw [hm, exceptBind_error] at h
        cases h
        rcases ih hm with ⟨a, ha, hfa⟩
        exact ⟨a, List.mem_cons_of_mem x ha, hfa⟩
      | ok ys => rw [hm, exceptBind_ok] at h; cases h

theorem direntToEntry_error_form {fs : Fs} {R : String} {d : Dirent}
    {e : DirError} (h : direntToEntry fs R d = .error e) :
    ∃ m, e = .readError m := by
  unfold direntToEntry at h
  cases hst : fs.stat (pathJoin R d.name) with
  | error m => rw [hst] at h; cases h; exact ⟨m, rfl⟩
  | ok st => rw [hst] at h; cases h

theorem fsOfTree_readdir_missing {t : FsNode} {p : String}
    (h : pathLookup t p = none) :
    (fsOfTree t).readdir p =
      .error ("ENOENT: no such file or directory, scandir " ++ p) := by
  simp only [fsOfTree]
  rw [h]

theorem fsOfTree_readdir_file {t : FsNode} {p : String} {sz : Int}
    {mt : String} (h : pathLookup t p = some (.file sz mt)) :
    (fsOfTree t).readdir p =
      .error ("ENOTDIR: not a directory, scandir " ++ p) := by
  simp only [fsOfTree]
  rw [h]

/-! ### Claims -/

/-- C1: the spec demands that a resolved path which is a mere string-prefix
sibling of the base (such as `/dp-apps-evil` for base `/dp-apps`) be rejected
with `OutOfBoundsError`.  The code's containment check is the naive
`targetPath.startsWith(BASE_DIRECTORY)`, so the request `"../dp-apps-evil"`
resolves to `/dp-apps-evil`, passes the check, and `readDirectory` returns a
snapshot whose `absolutePath` neither equals `basePath` nor extends it with a
separator — the code contradicts the claim. -/
theorem claim_C1_sibling_prefix_escape :
    resolvePath "../dp-apps-evil" = .ok "/dp-apps-evil" ∧
    (readDirectory asciiCompare (fsOfTree evilTree) "../dp-apps-evil").map
      (fun s => s.absolutePath) = .ok "/dp-apps-evil" ∧
    "/dp-apps-evil" ≠ BASE_DIRECTORY ∧
    jsStartsWith "/dp-apps-evil" (BASE_DIRECTORY ++ "/") = false := by
  refine ⟨by decide, by decide, by decide, by decide⟩

/-- C2: the spec demands that every request normalizing outside the base
directory fail with `OutOfBoundsError`.  The example `"../../etc"` is indeed
rejected, but the quantification over all requests fails: `"../dp-apps-evil"`
normalizes to `/dp-apps-evil`, which is outside the base (neither equal to it
nor below it), yet `readDirectory` does not fail with `OutOfBoundsError`. -/
theorem claim_C2_escape_not_always_rejected :
    (stripLeadingSlashes "../dp-apps-evil" = "../dp-apps-evil" ∧
     pathResolve BASE_DIRECTORY "../dp-apps-evil" = "/dp-apps-evil" ∧
     "/dp-apps-evil" ≠ BASE_DIRECTORY ∧
     jsStartsWith "/dp-apps-evil" (BASE_DIRECTORY ++ "/") = false) ∧
    readDirectory asciiCompare (fsOfTree evilTree) "../dp-apps-evil" ≠
      .error .outOfBounds ∧
    readDirectory asciiCompare (fsOfTree baseTree) "../../etc" =
      .error .outOfBounds := by
  refine ⟨⟨by decide, by decide, by decide, by decide⟩, by decide, by decide⟩

/-- C3, counterexample: the handler forwards `error.message` verbatim, and a
failed `fs.readdir` rejects with a message naming the resolved path (Node
`ENOENT` format, as modelled by `fsOfTree`), so a 400 response body can
contain the internal absolute path `/dp-apps/secret` — the "no internal path
details" half of the claim fails. -/
theorem claim_C3_error_body_leaks_path :
    GET asciiCompare (fsOfTree baseTree) (some "secret") =
      { status := 400,
        body := .err "ENOENT: no such file or directory, scandir /dp-apps/secret" } ∧
    containsSubstr "ENOENT: no such file or directory, scandir /dp-apps/secret"
      "/dp-apps/secret" = true := by
  refine ⟨by decide, by decide⟩

/-- C3, amended: for every request the handler answers 200 with the snapshot
JSON on success and 400 with `{ error }` on any failure, where the error
string is the failure's `message` — a fixed generic sentence for the
out-of-bounds case, but the filesystem error's own message (which may name
internal paths) for read failures. -/
theorem claim_C3_amended_status_and_body (lc : String → String → Int)
    (fs : Fs) (q : Option String) :
    ((∃ s, readDirectory lc fs (q.getD "") = .ok s ∧
        GET lc fs q = { status := 200, body := .snapshot s }) ∨
     (∃ e, readDirectory lc fs (q.getD "") = .error e ∧
        GET lc fs q = { status := 400, body := .err e.message })) ∧
    DirError.outOfBounds.message =
      "Requested path is outside the allowed directory." := by
  refine ⟨?_, rfl⟩
  simp only [GET]
  cases h : readDirectory lc fs (q.getD "") with
  | ok s => exact Or.inl ⟨s, rfl, rfl⟩
  | error e => exact Or.inr ⟨e, rfl, rfl⟩

/-- C8: a request that fails the containment check fails with
`OutOfBoundsError` independently of the filesystem — the same outcome for
every filesystem state, i.e. before any filesystem access. -/
theorem claim_C8_oob_independent_of_fs (lc : String → String → Int)
    (fs fs2 : Fs) (p : String) (e : DirError)
    (h : resolvePath p = .error e) :
    readDirectory lc fs p = .error .outOfBounds ∧
    readDirectory lc fs p = readDirectory lc fs2 p := by
  have he := resolvePath_error_inv h
  subst he
  refine ⟨readDirectory_resolve_error h, ?_⟩
  rw [readDirectory_resolve_error h, readDirectory_resolve_error h]

/-- Witness for C8 at the traversal request `"../../etc"` and two different
filesystem states. -/
theorem claim_C8_witness :
    readDirectory asciiCompare (fsOfTree baseTree) "../../etc" =
      .error .outOfBounds ∧
    readDirectory asciiCompare (fsOfTree baseTree) "../../etc" =
      readDirectory asciiCompare (fsOfTree evilTree) "../../etc" :=
  claim_C8_oob_independent_of_fs asciiCompare (fsOfTree baseTree)
    (fsOfTree evilTree) "../../etc" .outOfBounds (by decide)

/-- C10: an existing directory with no children yields a snapshot with an
empty `entries` sequence, not an error. -/
theorem claim_C10_empty_directory (lc : String → String → Int) (fs : Fs)
    (p R : String) (hR : resolvePath p = .ok R)
    (hds : fs.readdir R = .ok []) :
    ∃ s, readDirectory lc fs p = .ok s ∧ s.entries = [] := by
  have h := @readDirectory_ok_build lc fs p R [] [] hR hds
    (show mapAll (direntToEntry fs R) [] = .ok [] from rfl)
  exact ⟨_, h, rfl⟩

/-- Witness for C10: the root request against an empty `/dp-apps`. -/
theorem claim_C10_witness :
    ∃ s, readDirectory asciiCompare (fsOfTree baseTree) "" = .ok s ∧
      s.entries = [] :=
  claim_C10_empty_directory asciiCompare (fsOfTree baseTree) "" "/dp-apps"
    (by decide) (by decide)

/-- C4, counterexample: the claim says `parentPath` is null exactly when the
requested path resolves to the base directory itself.  The request `"."`
resolves to the base directory, yet its breadcrumbs are
`[root, {label:".", path:"."}]`, so the code computes `parentPath = some ""`,
not null. -/
theorem claim_C4_parentPath_counterexample :
    pathResolve BASE_DIRECTORY (stripLeadingSlashes ".") = BASE_DIRECTORY ∧
    (readDirectory asciiCompare (fsOfTree baseTree) ".").map
      (fun s => (s.absolutePath, s.parentPath)) =
      .ok (BASE_DIRECTORY, some "") := by
  refine ⟨by decide, by decide⟩

/-- C4, amended: in every snapshot, `parentPath` is null exactly when the raw
requested path has no non-empty `/`-separated segments (in particular for the
root request `""`); otherwise it is the second-to-last breadcrumb's path. -/
theorem claim_C4_parentPath_amended (lc : String → String → Int) (fs : Fs)
    (p : String) (s : DirectorySnapshot) (h : readDirectory lc fs p = .ok s) :
    (s.parentPath = none ↔ segsOf p = []) ∧
    (p = "" → s.parentPath = none) ∧
    (s.breadcrumbs.length > 1 →
      s.parentPath =
        some ((s.breadcrumbs.getD (s.breadcrumbs.length - 2) default).path)) := by
  obtain ⟨R, ds, raw, hR, hds, hraw, rfl⟩ := readDirectory_ok_inv h
  have hlen : (buildBreadcrumbs p).length = (segsOf p).length + 1 := by
    simp [buildBreadcrumbs, crumbsFrom_length]
  by_cases hgt : (buildBreadcrumbs p).length > 1
  · refine ⟨?_, ?_, ?_⟩
    · show (if (buildBreadcrumbs p).length > 1
            then some (((buildBreadcrumbs p).getD
              ((buildBreadcrumbs p).length - 2) default).path)
            else none) = none ↔ segsOf p = []
      rw [if_pos hgt]
      constructor
      · intro hnone; cases hnone
      · intro hsegs
        rw [hsegs] at hlen
        simp at hlen
        exact absurd hgt (by omega)
    · intro hp
      subst hp
      have hsegs : segsOf "" = [] := by decide
      rw [hsegs] at hlen
      simp at hlen
      exact absurd hgt (by omega)
    · intro _
      show (if (buildBreadcrumbs p).length > 1
            then some (((buildBreadcrumbs p).getD
              ((buildBreadcrumbs p).length - 2) default).path)
            else none) = _
      rw [if_pos hgt]
  · refine ⟨?_, ?_, ?_⟩
    · show (if (buildBreadcrumbs p).length > 1
            then some (((buildBreadcrumbs p).getD
              ((buildBreadcrumbs p).length - 2) default).path)
            else none) = none ↔ segsOf p = []
      rw [if_neg hgt]
      constructor
      · intro _
        have hz : (segsOf p).length = 0 := by omega
        exact List.length_eq_zero.mp hz
      · intro _; rfl
    · intro _
      show (if (buildBreadcrumbs p).length > 1
            then some (((buildBreadcrumbs p).getD
              ((buildBreadcrumbs p).length - 2) default).path)
            else none) = none
      rw [if_neg hgt]
    · intro hgt2
      exact absurd hgt2 hgt

/-- Witness for the amended C4 at the request `"foo"` (one level deep,
`parentPath = some ""`). -/
theorem claim_C4_witness :
    (fooSnapshot.parentPath = none ↔ segsOf "foo" = []) ∧
    ("foo" = "" → fooSnapshot.parentPath = none) ∧
    (fooSnapshot.breadcrumbs.length > 1 →
      fooSnapshot.parentPath =
        some ((fooSnapshot.breadcrumbs.getD
          (fooSnapshot.breadcrumbs.length - 2) default).path)) :=
  claim_C4_parentPath_amended asciiCompare (fsOfTree fooTree) "foo"
    fooSnapshot (by decide)

/-- C6: for every raw requested path the breadcrumb builder produces exactly
the sequence described by the spec; in particular `"foo/bar"` yields
`[{dp-apps, ""}, {foo, "foo"}, {bar, "foo/bar"}]`. -/
theorem claim_C6_breadcrumbs (p : String) :
    buildBreadcrumbs p = breadcrumbsSpec p ∧
    buildBreadcrumbs "foo/bar" =
      [{ label := "dp-apps", path := "" }, { label := "foo", path := "foo" },
       { label := "bar", path := "foo/bar" }] := by
  constructor
  · simp only [buildBreadcrumbs, breadcrumbsSpec]
    rw [crumbs_root (segsOf p) (fun x hx => segsOf_mem_ne_empty hx)]
    rw [if_neg (by decide)]
  · decide

set_option maxHeartbeats 1000000 in
/-- C9: a successful snapshot's entries are a permutation of one entry per
listed child — none omitted, none duplicated — with the child's name, its
path relative to the base directory, and its directory/file classification. -/
theorem claim_C9_entries_match_children (lc : String → String → Int)
    (fs : Fs) (p : String) (s : DirectorySnapshot)
    (h : readDirectory lc fs p = .ok s) :
    ∃ ds raw, fs.readdir s.absolutePath = .ok ds ∧
      List.Forall₂ (fun d e =>
        e.name = d.name ∧
        e.relativePath =
          pathRelative BASE_DIRECTORY (pathJoin s.absolutePath d.name) ∧
        e.type =
          (if d.isDirectory then EntryType.directory else EntryType.file))
        ds raw ∧
      s.entries.Perm raw := by
  obtain ⟨R, ds, raw, hR, hds, hraw, rfl⟩ := readDirectory_ok_inv h
  refine ⟨ds, raw, hds, ?_, List.perm_insertionSort (entryLe lc) raw⟩
  have hf := mapAll_ok_forall₂ hraw
  refine hf.imp ?_
  intro d e hde
  obtain ⟨st, hst, rfl⟩ := direntToEntry_ok_inv hde
  exact ⟨rfl, rfl, rfl⟩

set_option maxHeartbeats 2000000 in
/-- Witness for C9 on the four-child tree. -/
theorem claim_C9_witness :
    ∃ ds raw,
      (fsOfTree sortTree).readdir sortSnapshot.absolutePath = .ok ds ∧
      List.Forall₂ (fun d e =>
        e.name = d.name ∧
        e.relativePath =
          pathRelative BASE_DIRECTORY
            (pathJoin sortSnapshot.absolutePath d.name) ∧
        e.type =
          (if d.isDirectory then EntryType.directory else EntryType.file))
        ds raw ∧
      sortSnapshot.entries.Perm raw :=
  claim_C9_entries_match_children asciiCompare (fsOfTree sortTree) ""
    sortSnapshot (by decide)

/-- C5: with any consistent collation, every successful snapshot's entries
are pairwise ordered with directories before files and, within a type group,
ascending by the collation; the output is the stable sort of the listed
entries (equal-key runs keep listing order) and a permutation of them. -/
theorem claim_C5_entries_sorted (lc : String → String → Int) (fs : Fs)
    (p : String) (s : DirectorySnapshot)
    (htot : ∀ a b, lc a b ≤ 0 ∨ lc b a ≤ 0)
    (htr : ∀ a b c, lc a b ≤ 0 → lc b c ≤ 0 → lc a c ≤ 0)
    (h : readDirectory lc fs p = .ok s) :
    s.entries.Pairwise (fun a b =>
      (a.type = .directory ∧ b.type = .file) ∨
      (a.type = b.type ∧ lc a.name b.name ≤ 0)) ∧
    ∃ ds raw, fs.readdir s.absolutePath = .ok ds ∧
      mapAll (direntToEntry fs s.absolutePath) ds = .ok raw ∧
      s.entries = List.insertionSort (entryLe lc) raw ∧
      s.entries.Perm raw ∧
      (∀ c : List DirectoryEntry, c.Pairwise (entryLe lc) → c.Sublist raw →
        c.Sublist s.entries) := by
  obtain ⟨R, ds, raw, hR, hds, hraw, rfl⟩ := readDirectory_ok_inv h
  constructor
  · have hsort : List.Sorted (entryLe lc) (List.insertionSort (entryLe lc) raw) :=
      @List.sorted_insertionSort DirectoryEntry (entryLe lc) _
        ⟨entryLe_total htot⟩ ⟨entryLe_trans htr⟩ raw
    exact hsort.imp (fun hab => (entryLe_iff lc _ _).mp hab)
  · exact ⟨ds, raw, hds, hraw, rfl, List.perm_insertionSort (entryLe lc) raw,
      fun c hc hsub => List.sublist_insertionSort hc hsub⟩

set_option maxHeartbeats 2000000 in
/-- Witness for C5: the spec's four-name example, listed by the filesystem as
`b.txt, A, a.txt, B`, comes back as `A, B, a.txt, b.txt`. -/
theorem claim_C5_witness :
    (readDirectory asciiCompare (fsOfTree sortTree) "" = .ok sortSnapshot ∧
     sortSnapshot.entries.map (fun e => e.name) =
       ["A", "B", "a.txt", "b.txt"]) ∧
    (sortSnapshot.entries.Pairwise (fun a b =>
      (a.type = .directory ∧ b.type = .file) ∨
      (a.type = b.type ∧ asciiCompare a.name b.name ≤ 0)) ∧
    ∃ ds raw, (fsOfTree sortTree).readdir sortSnapshot.absolutePath = .ok ds ∧
      mapAll (direntToEntry (fsOfTree sortTree) sortSnapshot.absolutePath) ds
        = .ok raw ∧
      sortSnapshot.entries = List.insertionSort (entryLe asciiCompare) raw ∧
      sortSnapshot.entries.Perm raw ∧
      (∀ c : List DirectoryEntry,
        c.Pairwise (entryLe asciiCompare) → c.Sublist raw →
        c.Sublist sortSnapshot.entries)) :=
  ⟨⟨by decide, by decide⟩,
    claim_C5_entries_sorted asciiCompare (fsOfTree sortTree) "" sortSnapshot
      asciiCompare_total asciiCompare_trans (by decide)⟩

/-- C7: once the requested path resolves, a failing `readdir` (missing path,
not a directory, inaccessible) fails the call with a `ReadError`, a failing
`stat` on any single child fails the whole call with a `ReadError`, and a
failed call never also returns a snapshot (no partial listing). -/
theorem claim_C7_read_failures (lc : String → String → Int) (fs : Fs)
    (p R : String) (hR : resolvePath p = .ok R) :
    (∀ m, fs.readdir R = .error m →
      readDirectory lc fs p = .error (.readError m)) ∧
    (∀ ds d m, fs.readdir R = .ok ds → d ∈ ds →
      fs.stat (pathJoin R d.name) = .error m →
      ∃ m2, readDirectory lc fs p = .error (.readError m2)) ∧
    (∀ t, fs = fsOfTree t →
      (pathLookup t R = none ∨ (∃ sz mt, pathLookup t R = some (.file sz mt))) →
      ∃ m3, readDirectory lc fs p = .error (.readError m3)) ∧
    (∀ e s2, readDirectory lc fs p = .error e →
      readDirectory lc fs p ≠ .ok s2) := by
  refine ⟨?_, ?_, ?_, ?_⟩
  · intro m hm
    exact readDirectory_readdir_error hR hm
  · intro ds d m hds hd hst
    obtain ⟨e, he⟩ := mapAll_error_of_mem hd (direntToEntry_stat_error hst)
    obtain ⟨a, _, hfa⟩ := mapAll_error_form he
    obtain ⟨m2, rfl⟩ := direntToEntry_error_form hfa
    exact ⟨m2, readDirectory_mapAll_error hR hds he⟩
  · intro t hfs hlook
    subst hfs
    rcases hlook with hnone | ⟨sz, mt, hfile⟩
    · exact ⟨_, readDirectory_readdir_error hR (fsOfTree_readdir_missing hnone)⟩
    · exact ⟨_, readDirectory_readdir_error hR (fsOfTree_readdir_file hfile)⟩
  · intro e s2 herr hok
    rw [herr] at hok
    cases hok

/-- Witness for C7: requesting the file `file.txt` fails with the `ENOTDIR`
read error. -/
theorem claim_C7_witness :
    readDirectory asciiCompare (fsOfTree fileTree) "file.txt" =
      .error (.readError "ENOTDIR: not a directory, scandir /dp-apps/file.txt") :=
  (claim_C7_read_failures asciiCompare (fsOfTree fileTree) "file.txt"
    "/dp-apps/file.txt" (by decide)).1 _ (by decide)
